import Mathlib

/-!
# StreamBridge — a verification development

A shallow embedding, in Lean 4, of the core pipeline of the StreamBridge
message bridge: the encrypted envelope codec (`utils/encryption.js`), the
failure-recovery path (`handlers/errorQueue.js`), the producer-side
validation gate (`messaging/kafka/producer.js`), the idempotent consumer
registry (`messaging/kafka/consumer.js`, `messaging/rabbitmq/consumer.js`),
and the WebSocket fan-out hub (`websocket/server.js`).

Pure data is modelled directly; randomness and wall-clock time enter the
JavaScript functions as oracle arguments (the random IV, the `Date.now()`
milliseconds, the ISO timestamp strings).  Bytes are `Nat`s below 256.
The AES-256-GCM primitive supplied by Node's `crypto` module is not part of
the repository; it is modelled as a parameter (`AEAD`) carrying its
documented contract, while everything the repository itself does — base64
framing, the `iv:tag:ciphertext` colon format, the three-part shape check,
the success/failure branches — is embedded concretely and executably.
-/

namespace StreamBridge

/-- A byte list: every element is below 256. -/
def IsBytes (l : List Nat) : Prop := ∀ b ∈ l, b < 256

instance (l : List Nat) : Decidable (IsBytes l) := by
  unfold IsBytes; infer_instance

/-! ## Base64

Models Node's `Buffer.prototype.toString('base64')` /
`Buffer.from(s, 'base64')` on the inputs the codec produces: standard
alphabet, `=` padding. -/

/-- The standard base64 alphabet, in index order. -/
def b64chars : List Char :=
  "ABCDEFGHIJKLMNOPQRSTUVWXYZabcdefghijklmnopqrstuvwxyz0123456789+/".toList

/-- Character for a 6-bit value. -/
def b64char (n : Nat) : Char := b64chars.getD n 'A'

/-- 6-bit value of an alphabet character. -/
def b64val (c : Char) : Nat := b64chars.indexOf c

/-- Base64-encode a byte list (3 bytes → 4 chars, `=`-padded tail). -/
def b64encode : List Nat → List Char
  | [] => []
  | [a] => [b64char (a / 4), b64char (a % 4 * 16), '=', '=']
  | [a, b] => [b64char (a / 4), b64char (a % 4 * 16 + b / 16), b64char (b % 16 * 4), '=']
  | a :: b :: c :: rest =>
      b64char (a / 4) :: b64char (a % 4 * 16 + b / 16) ::
        b64char (b % 16 * 4 + c / 64) :: b64char (c % 64) :: b64encode rest

/-- Base64-decode a character list (inverse of `b64encode` on its image):
four characters at a time, stopping at `=` padding. -/
def b64decode : List Char → List Nat
  | w :: x :: y :: z :: rest =>
      if y = '=' then [b64val w * 4 + b64val x / 16]
      else if z = '=' then
        [b64val w * 4 + b64val x / 16, b64val x % 16 * 16 + b64val y / 4]
      else
        (b64val w * 4 + b64val x / 16) :: (b64val x % 16 * 16 + b64val y / 4) ::
          (b64val y % 4 * 64 + b64val z) :: b64decode rest
  | _ => []

/-! ## Splitting on `:`

Models JavaScript `String.prototype.split(':')` (all fields kept, empty
fields included). -/

/-- Split a character list at every `':'`. -/
def splitOnColon : List Char → List (List Char)
  | [] => [[]]
  | c :: rest =>
      if c = ':' then [] :: splitOnColon rest
      else
        match splitOnColon rest with
        | p :: ps => (c :: p) :: ps
        | [] => [[c]]

/-! ## The envelope codec (`src/backend/src/utils/encryption.js`)

`encryptData` / `decryptData` use Node's `crypto.createCipheriv` /
`crypto.createDecipheriv` with `aes-256-gcm`.  That primitive is external
to the repository; it is modelled as a structure `AEAD` whose operation
fields are the raw cipher (`encrypt`/`decrypt`) and the GCM authentication
tag (`mac`), and whose proof fields state its documented contract:
decryption inverts encryption under the same key and IV, outputs are
bytes, the tag is non-empty (16 bytes for GCM), and — the authentication
property — distinct same-length ciphertexts have distinct tags, so
`decipher.final()` throws on any tampered ciphertext or tag. -/

structure AEAD where
  encrypt : List Nat → List Nat → List Nat → List Nat
  decrypt : List Nat → List Nat → List Nat → List Nat
  mac : List Nat → List Nat → List Nat → List Nat
  decrypt_encrypt : ∀ key iv pt, IsBytes pt → decrypt key iv (encrypt key iv pt) = pt
  encrypt_bytes : ∀ key iv pt, IsBytes pt → IsBytes (encrypt key iv pt)
  mac_bytes : ∀ key iv ct, IsBytes ct → IsBytes (mac key iv ct)
  mac_ne_nil : ∀ key iv ct, mac key iv ct ≠ []
  mac_inj : ∀ key iv ct ct', ct.length = ct'.length → ct ≠ ct' →
    mac key iv ct ≠ mac key iv ct'

/-- `encryptData(data)` with the random IV passed explicitly: encrypt,
take the auth tag, and emit `base64(iv) : base64(authTag) : base64(ct)`. -/
def encryptData (A : AEAD) (key iv data : List Nat) : List Char :=
  let encrypted := A.encrypt key iv data
  let authTag := A.mac key iv encrypted
  b64encode iv ++ ':' :: (b64encode authTag ++ ':' :: b64encode encrypted)

/-- `decryptData(encryptedData)`: split on `':'`, require exactly three
parts, base64-decode each, set the auth tag when non-empty, and decrypt;
`decipher.final()` succeeds only when the tag matches the ciphertext's
GCM tag, and every failure is thrown (`none`). -/
def decryptData (A : AEAD) (key : List Nat) (encryptedData : List Char) :
    Option (List Nat) :=
  let parts := splitOnColon encryptedData
  if parts.length ≠ 3 then none
  else
    let ivStr := parts.getD 0 []
    let authTagStr := parts.getD 1 []
    let encryptedStr := parts.getD 2 []
    let iv := b64decode ivStr
    let authTag := b64decode authTagStr
    let encrypted := b64decode encryptedStr
    if authTagStr ≠ [] ∧ authTag = A.mac key iv encrypted then
      some (A.decrypt key iv encrypted)
    else none

/-- A concrete cipher satisfying the `AEAD` contract, used to instantiate
the codec theorems: byte-wise shift, with the ciphertext plus a sentinel
byte as tag. -/
def demoAEAD : AEAD where
  encrypt := fun _key _iv pt => pt.map (fun b => (b + 1) % 256)
  decrypt := fun _key _iv ct => ct.map (fun b => (b + 255) % 256)
  mac := fun _key _iv ct => ct ++ [0]
  decrypt_encrypt := by
    intro key iv pt h
    induction pt with
    | nil => rfl
    | cons b tl ih =>
        have hb : b < 256 := h b (by simp)
        have htl : IsBytes tl := fun x hx => h x (by simp [hx])
        simp only [List.map_cons, List.map_map] at ih ⊢
        rw [ih htl]
        congr 1
        omega
  encrypt_bytes := by
    intro key iv pt h x hx
    simp only [List.mem_map] at hx
    obtain ⟨b, _, rfl⟩ := hx
    omega
  mac_bytes := by
    intro key iv ct h x hx
    rcases List.mem_append.1 hx with h' | h'
    · exact h x h'
    · simp at h'; omega
  mac_ne_nil := by intro key iv ct; simp
  mac_inj := by
    intro key iv ct ct' _ hne h
    exact hne (List.append_inj_left' h (by rfl))

/-- A concrete key (the bytes of `"01"`), for instantiating theorems. -/
def sampleKey : List Nat := [48, 49]

/-- A concrete 16-byte IV, standing in for `crypto.randomBytes(16)`. -/
def sampleIV : List Nat := [0, 1, 2, 3, 4, 5, 6, 7, 8, 9, 10, 11, 12, 13, 14, 15]

/-- A concrete payload: the UTF-8 bytes of `"Hi"`. -/
def sampleData : List Nat := [72, 105]

/-! ## JavaScript values and objects

The failure-recovery module builds and republishes plain JavaScript
objects (`{...spread}` with literal-key overrides).  They are modelled as
ordered association lists, with spread-override (`setField`) keeping the
original key order and appending genuinely new keys, exactly as the JS
object-literal semantics does. -/

inductive JValue where
  | jnull
  | jbool (b : Bool)
  | jnum (n : Nat)
  | jstr (s : String)
  | jobj (fields : List (String × JValue))

/-- A JavaScript object: ordered key/value fields. -/
abbrev JObj := List (String × JValue)

/-- Property read `o[k]`. -/
def lookupField (o : JObj) (k : String) : Option JValue :=
  match o.find? (fun p => p.1 == k) with
  | some p => some p.2
  | none => none

/-- `{...o, k: v}`: override in place when `k` is already a key of `o`,
else append the new key. -/
def setField (o : JObj) (k : String) (v : JValue) : JObj :=
  if o.any (fun p => p.1 == k) then
    o.map (fun p => if p.1 == k then (k, v) else p)
  else o ++ [(k, v)]

/-! ## Failure recovery (`src/backend/src/handlers/errorQueue.js`) -/

/-- The broker-delivered raw message inside a failure context: the Kafka
fields (`partition`/`offset`/`key`/`value`/`headers`) and the RabbitMQ
fields (`content`/`properties`/`fields`) of the untyped JS object. -/
structure RawMessage where
  partition : Nat
  offset : Nat
  key : Option String
  value : Option String
  headers : JObj
  content : Option String
  properties : JObj
  fields : JObj

/-- The `messageData` argument of `handleFailedMessage`. -/
structure MessageData where
  error : JValue
  retryCount : Option Nat
  topic : String
  queue : String
  message : RawMessage

/-- `x ? x.toString() : null`. -/
def optToJ : Option String → JValue
  | some s => .jstr s
  | none => .jnull

/-- The `originalMessage` member of the error record, built per source. -/
def mkOriginalMessage (source : String) (md : MessageData) : JValue :=
  if source = "kafka" then
    .jobj [("topic", .jstr md.topic), ("partition", .jnum md.message.partition),
      ("offset", .jnum md.message.offset), ("key", optToJ md.message.key),
      ("value", optToJ md.message.value), ("headers", .jobj md.message.headers)]
  else
    .jobj [("queue", .jstr md.queue), ("content", optToJ md.message.content),
      ("properties", .jobj md.message.properties), ("fields", .jobj md.message.fields)]

/-- The `errorMessage` record `handleFailedMessage` constructs:
`retryCount` defaults to 0 when absent (`messageData.retryCount || 0`). -/
def buildErrorMessage (source : String) (now : String) (md : MessageData) : JObj :=
  [("source", .jstr source), ("timestamp", .jstr now), ("error", md.error),
   ("retryCount", .jnum (md.retryCount.getD 0)),
   ("originalMessage", mkOriginalMessage source md)]

/-- Numeric read of a record's `retryCount` member. -/
def getRetryCount (o : JObj) : Nat :=
  match lookupField o "retryCount" with
  | some (.jnum n) => n
  | _ => 0

/-- `sendToRetryQueue`: compute `retryDelayMs = 2^retryCount * 1000`
(from the record it is handed, whose `retryCount` the caller has already
incremented) and republish the record augmented with `retryAt` and
`retryDelay`.  `iso` renders `Date.now() + delay` as an ISO string. -/
def sendToRetryQueue (errorMessage : JObj) (nowMs : Nat) (iso : Nat → String) : JObj :=
  let retryDelayMs := 2 ^ getRetryCount errorMessage * 1000
  let retryAt := iso (nowMs + retryDelayMs)
  setField (setField errorMessage "retryAt" (.jstr retryAt))
    "retryDelay" (.jnum retryDelayMs)

/-- `sendToDeadLetterQueue`: republish the record unchanged except for a
`movedToDLQ` timestamp and `finalStatus: 'failed'`. -/
def sendToDeadLetterQueue (errorMessage : JObj) (now : String) : JObj :=
  setField (setField errorMessage "movedToDLQ" (.jstr now))
    "finalStatus" (.jstr "failed")

/-- What one `handleFailedMessage` invocation republished, and where. -/
inductive RecoveryAction where
  | retried (record : JObj)
  | deadLettered (record : JObj)

/-- `handleFailedMessage(source, messageData)`: build the error record;
if its `retryCount` is below `MAX_RETRIES`, republish to the retry
destination with `retryCount + 1`, else hand the record to the DLQ path. -/
def handleFailedMessage (maxRetries : Nat) (source : String) (md : MessageData)
    (now : String) (nowMs : Nat) (iso : Nat → String) (dlqNow : String) :
    RecoveryAction :=
  let errorMessage := buildErrorMessage source now md
  if getRetryCount errorMessage < maxRetries then
    .retried (sendToRetryQueue
      (setField errorMessage "retryCount" (.jnum (getRetryCount errorMessage + 1)))
      nowMs iso)
  else
    .deadLettered (sendToDeadLetterQueue errorMessage dlqNow)

/-- The record `handleFailedMessage` republishes on the retry path:
the error record with `retryCount` incremented, then augmented by
`sendToRetryQueue`. -/
def retryRecord (source now : String) (md : MessageData) (nowMs : Nat)
    (iso : Nat → String) : JObj :=
  sendToRetryQueue
    (setField (buildErrorMessage source now md) "retryCount"
      (.jnum (md.retryCount.getD 0 + 1)))
    nowMs iso

/-- The record `handleFailedMessage` republishes on the DLQ path. -/
def dlqRecord (source now : String) (md : MessageData) (dlqNow : String) : JObj :=
  sendToDeadLetterQueue (buildErrorMessage source now md) dlqNow

/-- Whether an action is the DLQ hand-off. -/
def isDeadLettered : RecoveryAction → Bool
  | .deadLettered _ => true
  | .retried _ => false

/-- A handler that always fails: each retried record is redelivered, fails
again, and re-enters `handleFailedMessage` carrying the republished
record's `retryCount`; a dead-lettered record is terminal.  Returns the
list of (retryCount read, action taken) pairs, newest call last. -/
def simulateAlwaysFailing (maxRetries : Nat) (source : String)
    (now : String) (nowMs : Nat) (iso : Nat → String) (dlqNow : String) :
    MessageData → Nat → List (Nat × RecoveryAction)
  | _, 0 => []
  | md, fuel + 1 =>
      let a := handleFailedMessage maxRetries source md now nowMs iso dlqNow
      (md.retryCount.getD 0, a) ::
        match a with
        | .retried r =>
            simulateAlwaysFailing maxRetries source now nowMs iso dlqNow
              { md with retryCount := some (getRetryCount r) } fuel
        | .deadLettered _ => []

/-- A concrete failed Kafka delivery, for instantiating theorems. -/
def sampleRawMessage : RawMessage :=
  { partition := 0, offset := 5, key := some "k", value := some "v",
    headers := [], content := none, properties := [], fields := [] }

/-- A concrete `messageData` with no prior retries. -/
def sampleMessageData : MessageData :=
  { error := .jstr "boom", retryCount := none, topic := "orders",
    queue := "orders", message := sampleRawMessage }

/-- A concrete `messageData` that has exhausted its retries. -/
def sampleExhausted : MessageData :=
  { sampleMessageData with retryCount := some 3 }

/-! ## Consumer registries (`messaging/kafka/consumer.js`,
`messaging/rabbitmq/consumer.js`)

Both consumers keep a module-level `activeConsumers` map from source name
(topic or queue) to the live consumer object; `createConsumer` returns the
existing entry when one is present.  The consumer object is modelled as an
opaque handle (`Nat`), `fresh` standing for the object a new registration
would create. -/

/-- `createConsumer(topic)` over registry state: return the existing
handle if present, else create, register and return the fresh one. -/
def createConsumer (consumers : List (String × Nat)) (source : String)
    (fresh : Nat) : List (String × Nat) × Nat :=
  match consumers.find? (fun p => p.1 == source) with
  | some p => (consumers, p.2)
  | none => ((source, fresh) :: consumers, fresh)

/-- The per-delivery transaction id the Kafka consumer callback assigns:
`` `kafka-${topic}-${message.offset}-${Date.now()}` ``. -/
def kafkaConsumerTransactionId (topic : String) (offset : Nat) (nowMs : Nat) : String :=
  "kafka-" ++ topic ++ "-" ++ toString offset ++ "-" ++ toString nowMs

/-- The per-delivery transaction id the RabbitMQ consumer callback
assigns: `` `rabbitmq-${queue}-${Date.now()}` ``. -/
def rabbitConsumerTransactionId (queue : String) (nowMs : Nat) : String :=
  "rabbitmq-" ++ queue ++ "-" ++ toString nowMs

/-! ## The fan-out hub (`src/backend/src/websocket/server.js`) -/

/-- A connected WebSocket client: socket open state and subscribed
topic list. -/
structure Client where
  id : String
  isOpen : Bool
  topics : List String
deriving DecidableEq

/-- `topics.some(topic => client.topics.includes(topic) ||
client.topics.includes('*'))`. -/
def clientMatches (topics : List String) (c : Client) : Bool :=
  topics.any (fun t => c.topics.contains t || c.topics.contains "*")

/-- `Array.isArray(topics) && topics.length > 0`; `none` models a
non-array argument. -/
def hasTopicFilter : Option (List String) → Bool
  | some ts => decide (0 < ts.length)
  | none => false

/-- The two skip-guards of the broadcast loop: closed sockets are
skipped, and when a topic filter is present non-matching clients are
skipped. -/
def clientReceives (tf : Option (List String)) (c : Client) : Bool :=
  c.isOpen && (if hasTopicFilter tf then clientMatches (tf.getD []) c else true)

/-- `broadcast(message, topics)`: the clients the message is sent to, and
the returned `sentCount`. -/
def broadcast (clients : List Client) (tf : Option (List String)) :
    List Client × Nat :=
  let delivered := clients.filter (clientReceives tf)
  (delivered, delivered.length)

/-- A concrete observer registry: an `orders` subscriber, a wildcard
subscriber, a disconnected `orders` subscriber, and an open observer with
no subscriptions. -/
def sampleClients : List Client :=
  [⟨"c1", true, ["orders"]⟩, ⟨"c2", true, ["*"]⟩,
   ⟨"c3", false, ["orders"]⟩, ⟨"c4", true, []⟩]

/-! ## The producer validation gate (`messaging/kafka/producer.js`) -/

/-- Result of the `validateMessage` collaborator. -/
structure ValidationResult where
  valid : Bool
  error : Option String

/-- The `produceMessage` options the gate reads. -/
structure ProduceOptions where
  transactionId : Option String
  messageType : Option String
  requireValidation : Bool
  broadcastEnabled : Bool

/-- Observable outcome of one `produceMessage` call: the thrown error or
returned transaction id, the topic handed to the config-level
`publishMessage` when that broker call happened (`none` = no broker I/O),
and whether the WebSocket broadcast ran. -/
structure ProduceResult where
  outcome : Except String String
  publishedTo : Option String
  broadcastCalled : Bool

/-- `produceMessage(topic, message, options)`: when validation is enabled,
the payload invalid and `options.requireValidation` set, throw before the
broker publish; otherwise publish (and broadcast unless disabled). -/
def produceMessage (validateEnabled : Bool)
    (validator : String → JValue → ValidationResult)
    (topic : String) (message : JValue) (opts : ProduceOptions)
    (genTx : String) : ProduceResult :=
  let transactionId := opts.transactionId.getD genTx
  let messageType := opts.messageType.getD "default"
  if validateEnabled && !(validator messageType message).valid &&
      opts.requireValidation then
    { outcome := .error ("Message validation failed: " ++
        ((validator messageType message).error.getD "")),
      publishedTo := none, broadcastCalled := false }
  else
    { outcome := .ok transactionId, publishedTo := some topic,
      broadcastCalled := opts.broadcastEnabled }

/-! ## Theorems -/

theorem b64chars_length : b64chars.length = 64 := by decide

theorem b64val_b64char {n : Nat} (h : n < 64) : b64val (b64char n) = n := by
  revert n h; decide

theorem b64char_ne_eq {n : Nat} : b64char n ≠ '=' := by
  unfold b64char
  rcases Nat.lt_or_ge n 64 with h | h
  · revert n h; decide
  · rw [List.getD_eq_default _ _ (by rw [b64chars_length]; omega)]; decide

theorem b64char_ne_colon {n : Nat} : b64char n ≠ ':' := by
  unfold b64char
  rcases Nat.lt_or_ge n 64 with h | h
  · revert n h; decide
  · rw [List.getD_eq_default _ _ (by rw [b64chars_length]; omega)]; decide

theorem b64encode_no_colon : ∀ l : List Nat, ':' ∉ b64encode l := by
  intro l
  induction l using b64encode.induct with
  | case1 => simp [b64encode]
  | case2 a =>
      simp only [b64encode, List.mem_cons, List.not_mem_nil, or_false]
      push_neg
      exact ⟨Ne.symm b64char_ne_colon, Ne.symm b64char_ne_colon, by decide, by decide⟩
  | case3 a b =>
      simp only [b64encode, List.mem_cons, List.not_mem_nil, or_false]
      push_neg
      exact ⟨Ne.symm b64char_ne_colon, Ne.symm b64char_ne_colon,
        Ne.symm b64char_ne_colon, by decide⟩
  | case4 a b c rest ih =>
      simp only [b64encode, List.mem_cons]
      push_neg
      exact ⟨Ne.symm b64char_ne_colon, Ne.symm b64char_ne_colon,
        Ne.symm b64char_ne_colon, Ne.symm b64char_ne_colon, ih⟩

theorem b64encode_ne_nil {l : List Nat} (h : l ≠ []) : b64encode l ≠ [] := by
  match l, h with
  | [a], _ => simp [b64encode]
  | [a, b], _ => simp [b64encode]
  | a :: b :: c :: rest, _ => simp [b64encode]

/-- Decoding inverts encoding on byte lists. -/
theorem b64decode_b64encode : ∀ l : List Nat, IsBytes l → b64decode (b64encode l) = l := by
  intro l
  induction l using b64encode.induct with
  | case1 => intro _; rfl
  | case2 a =>
      intro hb
      have ha : a < 256 := hb a (by simp)
      rw [b64encode, b64decode, if_pos rfl,
        b64val_b64char (by omega), b64val_b64char (by omega)]
      congr 1
      omega
  | case3 a b =>
      intro hb
      have ha : a < 256 := hb a (by simp)
      have hb' : b < 256 := hb b (by simp)
      rw [b64encode, b64decode, if_neg b64char_ne_eq, if_pos rfl,
        b64val_b64char (by omega), b64val_b64char (by omega), b64val_b64char (by omega)]
      congr 1
      · omega
      · congr 1; omega
  | case4 a b c rest ih =>
      intro hb
      have ha : a < 256 := hb a (by simp)
      have hb' : b < 256 := hb b (by simp)
      have hc : c < 256 := hb c (by simp)
      have hrest : IsBytes rest := fun x hx => hb x (by simp [hx])
      rw [b64encode, b64decode, if_neg b64char_ne_eq, if_neg b64char_ne_eq,
        b64val_b64char (by omega), b64val_b64char (by omega),
        b64val_b64char (by omega), b64val_b64char (by omega), ih hrest]
      congr 1
      · omega
      · congr 1
        · omega
        · congr 1; omega

theorem splitOnColon_ne_nil : ∀ l : List Char, splitOnColon l ≠ [] := by
  intro l
  induction l with
  | nil => simp [splitOnColon]
  | cons c rest ih =>
      rw [splitOnColon]
      by_cases hc : c = ':'
      · simp [hc]
      · rw [if_neg hc]
        cases h : splitOnColon rest with
        | nil => simp
        | cons p ps => simp

/-- A colon-free list is returned whole. -/
theorem splitOnColon_no_colon : ∀ l : List Char, ':' ∉ l → splitOnColon l = [l] := by
  intro l
  induction l with
  | nil => intro _; rfl
  | cons c rest ih =>
      intro h
      have hc : c ≠ ':' := fun hh => h (hh ▸ List.mem_cons_self c rest)
      have hrest : ':' ∉ rest := fun hh => h (List.mem_cons_of_mem c hh)
      rw [splitOnColon, if_neg hc, ih hrest]

/-- Splitting peels off a colon-free prefix before a `':'`. -/
theorem splitOnColon_append (a : List Char) (rest : List Char) (h : ':' ∉ a) :
    splitOnColon (a ++ ':' :: rest) = a :: splitOnColon rest := by
  induction a with
  | nil => simp [splitOnColon]
  | cons c tl ih =>
      have hc : c ≠ ':' := fun hh => h (hh ▸ List.mem_cons_self c tl)
      have htl : ':' ∉ tl := fun hh => h (List.mem_cons_of_mem c hh)
      rw [List.cons_append, splitOnColon, if_neg hc, ih htl]

/-- The three-part envelope shape produced by the codec splits exactly. -/
theorem splitOnColon_three (a b c : List Char)
    (ha : ':' ∉ a) (hb : ':' ∉ b) (hc : ':' ∉ c) :
    splitOnColon (a ++ ':' :: (b ++ ':' :: c)) = [a, b, c] := by
  rw [splitOnColon_append a _ ha, splitOnColon_append b _ hb, splitOnColon_no_colon c hc]

/-- Setting an in-range index stores the written value. -/
theorem getD_set_self : ∀ (l : List Nat) (i b : Nat), i < l.length →
    (l.set i b).getD i 0 = b := by
  intro l
  induction l with
  | nil => intro i b h; simp at h
  | cons a tl ih =>
      intro i b h
      cases i with
      | zero => rfl
      | succ j =>
          simp only [List.set_cons_succ, List.getD_cons_succ]
          exact ih j b (by simpa using h)

/-- Overwriting one byte with a byte keeps the list a byte list. -/
theorem isBytes_set (l : List Nat) (i b : Nat) (hl : IsBytes l) (hb : b < 256) :
    IsBytes (l.set i b) := by
  intro x hx
  rcases List.mem_or_eq_of_mem_set hx with h | rfl
  · exact hl x h
  · exact hb

/-- Flipping an in-range byte to a different value changes the list. -/
theorem set_flip_ne (l : List Nat) (i b : Nat) (hi : i < l.length)
    (hb : b ≠ l.getD i 0) : l.set i b ≠ l := by
  intro h
  apply hb
  rw [← getD_set_self l i b hi]
  exact congrArg (fun t => List.getD t i 0) h

/-- C1.  Round-trip of the envelope codec: decrypting the result of
encrypting a payload under the configured key, with the IV the encode call
drew, returns the payload exactly. -/
theorem decryptData_encryptData (A : AEAD) (key iv data : List Nat)
    (hdata : IsBytes data) (hiv : IsBytes iv) :
    decryptData A key (encryptData A key iv data) = some data := by
  have hct : IsBytes (A.encrypt key iv data) := A.encrypt_bytes key iv data hdata
  have htag : IsBytes (A.mac key iv (A.encrypt key iv data)) :=
    A.mac_bytes key iv _ hct
  simp only [decryptData, encryptData,
    splitOnColon_three _ _ _ (b64encode_no_colon iv) (b64encode_no_colon _)
      (b64encode_no_colon _)]
  simp only [List.length_cons, List.length_nil, List.getD, List.get?_cons_zero,
    List.get?_cons_succ, Option.getD_some]
  rw [if_neg (by omega), b64decode_b64encode iv hiv, b64decode_b64encode _ htag,
    b64decode_b64encode _ hct,
    if_pos ⟨b64encode_ne_nil (A.mac_ne_nil key iv _), rfl⟩,
    A.decrypt_encrypt key iv data hdata]

/-- C1 witness: the round-trip theorem applied to the concrete cipher
`demoAEAD`, key bytes of `'0'…`, a concrete 16-byte IV and the payload
`"Hi"` (`[72, 105]`). -/
theorem decryptData_encryptData_witness :
    IsBytes [72, 105] ∧ IsBytes [0, 1, 2, 3, 4, 5, 6, 7, 8, 9, 10, 11, 12, 13, 14, 15] ∧
      decryptData demoAEAD [48, 49] (encryptData demoAEAD [48, 49]
        [0, 1, 2, 3, 4, 5, 6, 7, 8, 9, 10, 11, 12, 13, 14, 15] [72, 105]) =
        some [72, 105] :=
  ⟨by decide, by decide,
    decryptData_encryptData demoAEAD [48, 49]
      [0, 1, 2, 3, 4, 5, 6, 7, 8, 9, 10, 11, 12, 13, 14, 15] [72, 105]
      (by decide) (by decide)⟩

/-- C2.  Tamper detection: for an envelope produced by `encryptData`,
flipping any byte of the auth tag, or any byte of the ciphertext, makes
`decryptData` fail (`none`, i.e. the authentication-failed throw), and any
input that does not split into the three-part nonce/tag/ciphertext shape
fails as well; no partial plaintext is ever returned on these paths. -/
theorem decryptData_tamper (A : AEAD) (key iv data : List Nat)
    (hdata : IsBytes data) (hiv : IsBytes iv) :
    (∀ i b, i < (A.mac key iv (A.encrypt key iv data)).length → b < 256 →
        b ≠ (A.mac key iv (A.encrypt key iv data)).getD i 0 →
        decryptData A key
          (b64encode iv ++ ':' ::
            (b64encode ((A.mac key iv (A.encrypt key iv data)).set i b) ++ ':' ::
              b64encode (A.encrypt key iv data))) = none) ∧
    (∀ i b, i < (A.encrypt key iv data).length → b < 256 →
        b ≠ (A.encrypt key iv data).getD i 0 →
        decryptData A key
          (b64encode iv ++ ':' ::
            (b64encode (A.mac key iv (A.encrypt key iv data)) ++ ':' ::
              b64encode ((A.encrypt key iv data).set i b))) = none) ∧
    (∀ s : List Char, (splitOnColon s).length ≠ 3 → decryptData A key s = none) := by
  have hct : IsBytes (A.encrypt key iv data) := A.encrypt_bytes key iv data hdata
  have htag : IsBytes (A.mac key iv (A.encrypt key iv data)) :=
    A.mac_bytes key iv _ hct
  refine ⟨?_, ?_, ?_⟩
  · intro i b hi hb256 hbne
    have htag' : IsBytes ((A.mac key iv (A.encrypt key iv data)).set i b) :=
      isBytes_set _ i b htag hb256
    simp only [decryptData,
      splitOnColon_three _ _ _ (b64encode_no_colon iv) (b64encode_no_colon _)
        (b64encode_no_colon _)]
    simp only [List.length_cons, List.length_nil, List.getD, List.get?_cons_zero,
      List.get?_cons_succ, Option.getD_some]
    rw [if_neg (by omega), b64decode_b64encode iv hiv, b64decode_b64encode _ htag',
      b64decode_b64encode _ hct,
      if_neg (fun h => set_flip_ne _ i b hi hbne h.2)]
  · intro i b hi hb256 hbne
    have hct' : IsBytes ((A.encrypt key iv data).set i b) :=
      isBytes_set _ i b hct hb256
    simp only [decryptData,
      splitOnColon_three _ _ _ (b64encode_no_colon iv) (b64encode_no_colon _)
        (b64encode_no_colon _)]
    simp only [List.length_cons, List.length_nil, List.getD, List.get?_cons_zero,
      List.get?_cons_succ, Option.getD_some]
    rw [if_neg (by omega), b64decode_b64encode iv hiv, b64decode_b64encode _ htag,
      b64decode_b64encode _ hct']
    refine if_neg (fun h => ?_)
    exact A.mac_inj key iv (A.encrypt key iv data) ((A.encrypt key iv data).set i b)
      (List.length_set _ _ _).symm (Ne.symm (set_flip_ne _ i b hi hbne)) h.2
  · intro s h
    simp only [decryptData]
    rw [if_pos h]

/-- C2 witness: tag byte 0 flipped to 7, ciphertext byte 1 flipped to 9,
and a one-character input, all rejected under the concrete cipher. -/
theorem decryptData_tamper_witness :
    decryptData demoAEAD sampleKey
      (b64encode sampleIV ++ ':' ::
        (b64encode ((demoAEAD.mac sampleKey sampleIV
            (demoAEAD.encrypt sampleKey sampleIV sampleData)).set 0 7) ++ ':' ::
          b64encode (demoAEAD.encrypt sampleKey sampleIV sampleData))) = none ∧
    decryptData demoAEAD sampleKey
      (b64encode sampleIV ++ ':' ::
        (b64encode (demoAEAD.mac sampleKey sampleIV
            (demoAEAD.encrypt sampleKey sampleIV sampleData)) ++ ':' ::
          b64encode ((demoAEAD.encrypt sampleKey sampleIV sampleData).set 1 9))) = none ∧
    decryptData demoAEAD sampleKey ['a'] = none :=
  ⟨(decryptData_tamper demoAEAD sampleKey sampleIV sampleData
      (by decide) (by decide)).1 0 7 (by decide) (by decide) (by decide),
   (decryptData_tamper demoAEAD sampleKey sampleIV sampleData
      (by decide) (by decide)).2.1 1 9 (by decide) (by decide) (by decide),
   (decryptData_tamper demoAEAD sampleKey sampleIV sampleData
      (by decide) (by decide)).2.2 ['a'] (by decide)⟩

theorem lookupField_cons_of_pos {p : String × JValue} {tl : JObj} {k : String}
    (h : (p.1 == k) = true) : lookupField (p :: tl) k = some p.2 := by
  unfold lookupField
  rw [List.find?_cons_of_pos tl h]

theorem lookupField_cons_of_neg {p : String × JValue} {tl : JObj} {k : String}
    (h : (p.1 == k) = false) : lookupField (p :: tl) k = lookupField tl k := by
  unfold lookupField
  rw [List.find?_cons_of_neg tl (by simp [h])]

theorem lookupField_map_set_ne (o : JObj) (k k' : String) (v : JValue) (h : k' ≠ k) :
    lookupField (o.map (fun p => if p.1 == k then (k, v) else p)) k' =
      lookupField o k' := by
  induction o with
  | nil => rfl
  | cons p tl ih =>
      rw [List.map_cons]
      by_cases hp : p.1 = k
      · rw [if_pos (by simp [hp]),
          lookupField_cons_of_neg (by simp [Ne.symm h]),
          lookupField_cons_of_neg (by simp [hp, Ne.symm h])]
        exact ih
      · rw [if_neg (by simp [hp])]
        by_cases hp' : p.1 = k'
        · rw [lookupField_cons_of_pos (by simp [hp']),
            lookupField_cons_of_pos (by simp [hp'])]
        · rw [lookupField_cons_of_neg (by simp [hp']),
            lookupField_cons_of_neg (by simp [hp'])]
          exact ih

theorem lookupField_map_set_self (o : JObj) (k : String) (v : JValue)
    (h : o.any (fun p => p.1 == k) = true) :
    lookupField (o.map (fun p => if p.1 == k then (k, v) else p)) k = some v := by
  induction o with
  | nil => simp at h
  | cons p tl ih =>
      rw [List.map_cons]
      by_cases hp : p.1 = k
      · rw [if_pos (by simp [hp]), lookupField_cons_of_pos (by simp)]
      · rw [if_neg (by simp [hp]), lookupField_cons_of_neg (by simp [hp])]
        apply ih
        simpa [List.any_cons, hp] using h

theorem lookupField_append_ne (o : JObj) (k k' : String) (v : JValue) (h : k' ≠ k) :
    lookupField (o ++ [(k, v)]) k' = lookupField o k' := by
  induction o with
  | nil =>
      simp only [List.nil_append]
      rw [lookupField_cons_of_neg (by simp [Ne.symm h])]
  | cons p tl ih =>
      rw [List.cons_append]
      by_cases hp : p.1 = k'
      · rw [lookupField_cons_of_pos (by simp [hp]),
          lookupField_cons_of_pos (by simp [hp])]
      · rw [lookupField_cons_of_neg (by simp [hp]),
          lookupField_cons_of_neg (by simp [hp])]
        exact ih

theorem lookupField_append_self (o : JObj) (k : String) (v : JValue)
    (h : o.any (fun p => p.1 == k) = false) :
    lookupField (o ++ [(k, v)]) k = some v := by
  induction o with
  | nil =>
      simp only [List.nil_append]
      exact lookupField_cons_of_pos (by simp)
  | cons p tl ih =>
      rw [List.any_cons, Bool.or_eq_false_iff] at h
      rw [List.cons_append, lookupField_cons_of_neg h.1]
      exact ih h.2

/-- Reading back the key a spread-override just wrote. -/
theorem lookupField_setField_self (o : JObj) (k : String) (v : JValue) :
    lookupField (setField o k v) k = some v := by
  unfold setField
  cases h : o.any (fun p => p.1 == k) with
  | true =>
      rw [if_pos rfl]
      exact lookupField_map_set_self o k v h
  | false =>
      rw [if_neg (by simp)]
      exact lookupField_append_self o k v h

/-- A spread-override leaves every other key unchanged. -/
theorem lookupField_setField_ne (o : JObj) (k k' : String) (v : JValue)
    (h : k' ≠ k) : lookupField (setField o k v) k' = lookupField o k' := by
  unfold setField
  cases ha : o.any (fun p => p.1 == k) with
  | true =>
      rw [if_pos rfl]
      exact lookupField_map_set_ne o k k' v h
  | false =>
      rw [if_neg (by simp)]
      exact lookupField_append_ne o k k' v h

/-- Adding a genuinely new key appends it to the key order. -/
theorem keys_setField_absent (o : JObj) (k : String) (v : JValue)
    (h : o.any (fun p => p.1 == k) = false) :
    (setField o k v).map Prod.fst = o.map Prod.fst ++ [k] := by
  unfold setField
  rw [if_neg (by simp [h]), List.map_append]
  rfl

theorem getRetryCount_buildErrorMessage (source now : String) (md : MessageData) :
    getRetryCount (buildErrorMessage source now md) = md.retryCount.getD 0 := rfl

theorem getRetryCount_setField_retryCount (o : JObj) (n : Nat) :
    getRetryCount (setField o "retryCount" (.jnum n)) = n := by
  simp only [getRetryCount, lookupField_setField_self]

theorem getRetryCount_sendToRetryQueue (o : JObj) (nowMs : Nat) (iso : Nat → String) :
    getRetryCount (sendToRetryQueue o nowMs iso) = getRetryCount o := by
  simp only [getRetryCount, sendToRetryQueue]
  rw [lookupField_setField_ne _ _ _ _ (by decide),
    lookupField_setField_ne _ _ _ _ (by decide)]

theorem getRetryCount_retryRecord (source now : String) (md : MessageData)
    (nowMs : Nat) (iso : Nat → String) :
    getRetryCount (retryRecord source now md nowMs iso) =
      md.retryCount.getD 0 + 1 := by
  unfold retryRecord
  rw [getRetryCount_sendToRetryQueue, getRetryCount_setField_retryCount]

/-- Below `MAX_RETRIES`, `handleFailedMessage` republishes the incremented
record to the retry destination. -/
theorem handleFailedMessage_retry (maxRetries : Nat) (source now dlqNow : String)
    (nowMs : Nat) (iso : Nat → String) (md : MessageData)
    (h : md.retryCount.getD 0 < maxRetries) :
    handleFailedMessage maxRetries source md now nowMs iso dlqNow =
      .retried (retryRecord source now md nowMs iso) := by
  simp only [handleFailedMessage, retryRecord]
  rw [getRetryCount_buildErrorMessage, if_pos h]

/-- At or above `MAX_RETRIES`, `handleFailedMessage` hands the record to
the DLQ path. -/
theorem handleFailedMessage_dlq (maxRetries : Nat) (source now dlqNow : String)
    (nowMs : Nat) (iso : Nat → String) (md : MessageData)
    (h : maxRetries ≤ md.retryCount.getD 0) :
    handleFailedMessage maxRetries source md now nowMs iso dlqNow =
      .deadLettered (dlqRecord source now md dlqNow) := by
  simp only [handleFailedMessage, dlqRecord]
  rw [getRetryCount_buildErrorMessage, if_neg (by omega)]

theorem simulate_step_retry (source now dlqNow : String) (nowMs : Nat)
    (iso : Nat → String) (md : MessageData) (fuel : Nat)
    (h : md.retryCount.getD 0 < 3) :
    simulateAlwaysFailing 3 source now nowMs iso dlqNow md (fuel + 1) =
      (md.retryCount.getD 0, .retried (retryRecord source now md nowMs iso)) ::
        simulateAlwaysFailing 3 source now nowMs iso dlqNow
          { md with retryCount := some (md.retryCount.getD 0 + 1) } fuel := by
  simp only [simulateAlwaysFailing]
  rw [handleFailedMessage_retry 3 source now dlqNow nowMs iso md h]
  simp only [getRetryCount_retryRecord]

theorem simulate_step_dlq (source now dlqNow : String) (nowMs : Nat)
    (iso : Nat → String) (md : MessageData) (fuel : Nat)
    (h : 3 ≤ md.retryCount.getD 0) :
    simulateAlwaysFailing 3 source now nowMs iso dlqNow md (fuel + 1) =
      [(md.retryCount.getD 0, .deadLettered (dlqRecord source now md dlqNow))] := by
  simp only [simulateAlwaysFailing]
  rw [handleFailedMessage_dlq 3 source now dlqNow nowMs iso md h]

/-- C3.  For a handler that always fails, repeated invocation of
`handleFailedMessage` (default `MAX_RETRIES = 3`) reads the retryCount
sequence `0, 1, 2, 3`; the first three invocations republish to the retry
destination and the fourth — exactly when the read retryCount equals
`MAX_RETRIES` — dead-letters the record, once, after which the simulation
stops: a dead-lettered message is never scheduled for retry again
(the trace has exactly four entries however much fuel remains). -/
theorem alwaysFailing_retry_sequence (source now dlqNow : String) (nowMs : Nat)
    (iso : Nat → String) (md : MessageData) (hrc : md.retryCount = none)
    (fuel : Nat) (hfuel : 4 ≤ fuel) :
    ((simulateAlwaysFailing 3 source now nowMs iso dlqNow md fuel).map Prod.fst =
      [0, 1, 2, 3]) ∧
    ((simulateAlwaysFailing 3 source now nowMs iso dlqNow md fuel).map
      (fun p => isDeadLettered p.2) = [false, false, false, true]) := by
  obtain ⟨k, rfl⟩ : ∃ k, fuel = k + 4 := ⟨fuel - 4, by omega⟩
  rw [show k + 4 = (k + 3) + 1 from rfl,
    simulate_step_retry source now dlqNow nowMs iso md (k + 3) (by simp [hrc]),
    show k + 3 = (k + 2) + 1 from rfl,
    simulate_step_retry source now dlqNow nowMs iso _ (k + 2) (by simp [hrc]),
    show k + 2 = (k + 1) + 1 from rfl,
    simulate_step_retry source now dlqNow nowMs iso _ (k + 1) (by simp [hrc]),
    simulate_step_dlq source now dlqNow nowMs iso _ k (by simp [hrc])]
  constructor <;> simp [hrc, isDeadLettered]

/-- C3 witness: the always-failing simulation run concretely from a fresh
Kafka failure with fuel 10. -/
theorem alwaysFailing_retry_sequence_witness :
    sampleMessageData.retryCount = none ∧ 4 ≤ 10 ∧
    ((simulateAlwaysFailing 3 "kafka" "t0" 0 (fun _ => "t1") "t2"
        sampleMessageData 10).map Prod.fst = [0, 1, 2, 3]) :=
  ⟨rfl, by decide,
   (alwaysFailing_retry_sequence "kafka" "t0" "t2" 0 (fun _ => "t1")
      sampleMessageData rfl 10 (by decide)).1⟩

/-- C4 counterexample: the claim predicts a delay of `2^n` time units
with `n` the retryCount read before any increment.  For a first failure
(`retryCount` read as 0) the code republishes a retry record whose
`retryDelay` is 2000 ms — `2^(0+1) * 1000`, not `2^0 * 1000 = 1000`,
because `handleFailedMessage` increments `retryCount` before
`sendToRetryQueue` computes the delay from it. -/
theorem backoff_delay_counterexample :
    handleFailedMessage 3 "kafka" sampleMessageData "t0" 0 (fun _ => "t1") "t2" =
      .retried (retryRecord "kafka" "t0" sampleMessageData 0 (fun _ => "t1")) ∧
    sampleMessageData.retryCount.getD 0 = 0 ∧
    lookupField (retryRecord "kafka" "t0" sampleMessageData 0 (fun _ => "t1"))
      "retryDelay" = some (.jnum 2000) ∧
    (2000 : Nat) ≠ 2 ^ 0 * 1000 := by
  refine ⟨?_, rfl, ?_, by decide⟩
  · exact handleFailedMessage_retry 3 "kafka" "t0" "t2" 0 (fun _ => "t1")
      sampleMessageData (by decide)
  · rfl

/-- C4 amended: for a failing message whose context retryCount reads `n`
with `n < MAX_RETRIES`, the republished retry record's computed delay is
`2^(n+1) * 1000` ms (the exponent is the already-incremented retryCount
carried by the record), so reads 0, 1, 2 give delays 2 s, 4 s, 8 s. -/
theorem backoff_delay (maxRetries : Nat) (source now dlqNow : String) (nowMs : Nat)
    (iso : Nat → String) (md : MessageData)
    (h : md.retryCount.getD 0 < maxRetries) :
    handleFailedMessage maxRetries source md now nowMs iso dlqNow =
      .retried (retryRecord source now md nowMs iso) ∧
    lookupField (retryRecord source now md nowMs iso) "retryDelay" =
      some (.jnum (2 ^ (md.retryCount.getD 0 + 1) * 1000)) := by
  refine ⟨handleFailedMessage_retry maxRetries source now dlqNow nowMs iso md h, ?_⟩
  simp only [retryRecord, sendToRetryQueue]
  rw [lookupField_setField_self, getRetryCount_setField_retryCount]

/-- C4 amended witness: the first retry of a fresh failure carries a
2000 ms delay. -/
theorem backoff_delay_witness :
    sampleMessageData.retryCount.getD 0 < 3 ∧
    lookupField (retryRecord "kafka" "t0" sampleMessageData 0 (fun _ => "t1"))
      "retryDelay" =
      some (.jnum (2 ^ (sampleMessageData.retryCount.getD 0 + 1) * 1000)) :=
  ⟨by decide, (backoff_delay 3 "kafka" "t0" "t2" 0 (fun _ => "t1")
      sampleMessageData (by decide)).2⟩

/-- C7 counterexample: the consumer callback derives each delivery's
transaction id from `Date.now()`, so the same logical message (same topic,
same offset) processed again on retry at a later instant is assigned a
different transaction id — the id is regenerated, not preserved. -/
theorem consumer_transactionId_regenerated :
    kafkaConsumerTransactionId "orders" 5 1000 ≠
      kafkaConsumerTransactionId "orders" 5 2000 := by decide

/-- C7 amended: the failure-recovery path never touches the original
delivery: the retry record carries `originalMessage` (and with it the
original `x-transaction-id` header) unchanged and tracks the attempt count
in its own top-level `retryCount`; but each consumer callback invocation
assigns a fresh time-derived `transactionId`, so a retried delivery does
not carry the transaction id of the original delivery. -/
theorem retryRecord_preserves_original (maxRetries : Nat)
    (source now dlqNow : String) (nowMs : Nat) (iso : Nat → String)
    (md : MessageData) (h : md.retryCount.getD 0 < maxRetries) :
    handleFailedMessage maxRetries source md now nowMs iso dlqNow =
      .retried (retryRecord source now md nowMs iso) ∧
    lookupField (retryRecord source now md nowMs iso) "originalMessage" =
      some (mkOriginalMessage source md) ∧
    getRetryCount (retryRecord source now md nowMs iso) =
      md.retryCount.getD 0 + 1 := by
  refine ⟨handleFailedMessage_retry maxRetries source now dlqNow nowMs iso md h,
    ?_, getRetryCount_retryRecord source now md nowMs iso⟩
  simp only [retryRecord, sendToRetryQueue]
  rw [lookupField_setField_ne _ _ _ _ (by decide),
    lookupField_setField_ne _ _ _ _ (by decide),
    lookupField_setField_ne _ _ _ _ (by decide)]
  rfl

/-- C7 amended witness: the retry record of a concrete fresh failure
preserves its original message verbatim. -/
theorem retryRecord_preserves_original_witness :
    sampleMessageData.retryCount.getD 0 < 3 ∧
    lookupField (retryRecord "kafka" "t0" sampleMessageData 0 (fun _ => "t1"))
      "originalMessage" = some (mkOriginalMessage "kafka" sampleMessageData) :=
  ⟨by decide, (retryRecord_preserves_original 3 "kafka" "t0" "t2" 0 (fun _ => "t1")
      sampleMessageData (by decide)).2.1⟩

/-- C9.  When retries are exhausted, the record republished to the DLQ is
the incoming error record unchanged except for exactly two additions:
every key other than `movedToDLQ`/`finalStatus` reads the same, the two new
fields hold the DLQ timestamp and `"failed"`, and the key list is the old
key list with exactly `movedToDLQ` and `finalStatus` appended. -/
theorem dlqRecord_frame (maxRetries : Nat) (source now dlqNow : String)
    (nowMs : Nat) (iso : Nat → String) (md : MessageData)
    (h : maxRetries ≤ md.retryCount.getD 0) :
    handleFailedMessage maxRetries source md now nowMs iso dlqNow =
      .deadLettered (dlqRecord source now md dlqNow) ∧
    (∀ k, k ≠ "movedToDLQ" → k ≠ "finalStatus" →
      lookupField (dlqRecord source now md dlqNow) k =
        lookupField (buildErrorMessage source now md) k) ∧
    lookupField (dlqRecord source now md dlqNow) "movedToDLQ" =
      some (.jstr dlqNow) ∧
    lookupField (dlqRecord source now md dlqNow) "finalStatus" =
      some (.jstr "failed") ∧
    (dlqRecord source now md dlqNow).map Prod.fst =
      (buildErrorMessage source now md).map Prod.fst ++
        ["movedToDLQ", "finalStatus"] := by
  have hmov : (buildErrorMessage source now md).any
      (fun p => p.1 == "movedToDLQ") = false := rfl
  refine ⟨handleFailedMessage_dlq maxRetries source now dlqNow nowMs iso md h,
    ?_, ?_, ?_, ?_⟩
  · intro k hk1 hk2
    simp only [dlqRecord, sendToDeadLetterQueue]
    rw [lookupField_setField_ne _ _ _ _ hk2, lookupField_setField_ne _ _ _ _ hk1]
  · simp only [dlqRecord, sendToDeadLetterQueue]
    rw [lookupField_setField_ne _ _ _ _ (by decide), lookupField_setField_self]
  · simp only [dlqRecord, sendToDeadLetterQueue]
    rw [lookupField_setField_self]
  · simp only [dlqRecord, sendToDeadLetterQueue]
    have e1 : setField (buildErrorMessage source now md) "movedToDLQ"
        (.jstr dlqNow) =
        buildErrorMessage source now md ++ [("movedToDLQ", .jstr dlqNow)] := by
      unfold setField
      rw [if_neg (by simp [hmov])]
    rw [e1, keys_setField_absent _ _ _ (by rfl)]
    simp

/-- C9 witness: a concrete exhausted record keeps its `source` field and
gains `finalStatus: "failed"` on the DLQ path. -/
theorem dlqRecord_frame_witness :
    3 ≤ sampleExhausted.retryCount.getD 0 ∧
    lookupField (dlqRecord "kafka" "t0" sampleExhausted "t2") "finalStatus" =
      some (.jstr "failed") ∧
    lookupField (dlqRecord "kafka" "t0" sampleExhausted "t2") "source" =
      lookupField (buildErrorMessage "kafka" "t0" sampleExhausted) "source" :=
  ⟨by decide,
   (dlqRecord_frame 3 "kafka" "t0" "t2" 0 (fun _ => "t1") sampleExhausted
      (by decide)).2.2.2.1,
   (dlqRecord_frame 3 "kafka" "t0" "t2" 0 (fun _ => "t1") sampleExhausted
      (by decide)).2.1 "source" (by decide) (by decide)⟩

/-- With a non-empty topic filter, the broadcast loop's guards admit a
client iff its socket is open and its topic set intersects the filter or
contains the wildcard. -/
theorem clientReceives_some_iff (ts : List String) (hts : ts ≠ []) (c : Client) :
    clientReceives (some ts) c = true ↔
      (c.isOpen = true ∧ ((∃ t ∈ ts, t ∈ c.topics) ∨ "*" ∈ c.topics)) := by
  obtain ⟨a, ts', rfl⟩ : ∃ a ts', ts = a :: ts' := by
    cases ts with
    | nil => exact absurd rfl hts
    | cons a ts' => exact ⟨a, ts', rfl⟩
  simp only [clientReceives, hasTopicFilter, List.length_cons, Option.getD_some]
  rw [if_pos (by simp)]
  simp only [Bool.and_eq_true, clientMatches, List.any_eq_true, Bool.or_eq_true,
    List.contains, List.elem_iff]
  constructor
  · rintro ⟨ho, t, ht, h | h⟩
    · exact ⟨ho, .inl ⟨t, ht, h⟩⟩
    · exact ⟨ho, .inr h⟩
  · rintro ⟨ho, h | h⟩
    · obtain ⟨t, ht, hp⟩ := h
      exact ⟨ho, t, ht, .inl hp⟩
    · exact ⟨ho, a, List.mem_cons_self a ts', .inr h⟩

/-- C5.  For a broadcast with a non-empty topic list, a connected client
receives the message iff its subscribed topic set intersects the message's
topics or contains the wildcard `"*"`; the returned `sentCount` is the
number of clients delivered to. -/
theorem broadcast_matching (clients : List Client) (ts : List String)
    (hts : ts ≠ []) (c : Client) (hc : c ∈ clients) :
    (c ∈ (broadcast clients (some ts)).1 ↔
      (c.isOpen = true ∧ ((∃ t ∈ ts, t ∈ c.topics) ∨ "*" ∈ c.topics))) ∧
    (broadcast clients (some ts)).2 = ((broadcast clients (some ts)).1).length := by
  refine ⟨?_, rfl⟩
  rw [broadcast, List.mem_filter]
  simp only [hc, true_and]
  exact clientReceives_some_iff ts hts c

/-- C5 witness: under topics `["orders", "kafka", "all"]`, the open
`orders` subscriber of the concrete registry is delivered to iff it
matches — and it does match. -/
theorem broadcast_matching_witness :
    ((⟨"c1", true, ["orders"]⟩ : Client) ∈
        (broadcast sampleClients (some ["orders", "kafka", "all"])).1 ↔
      ((true = true) ∧
        ((∃ t ∈ ["orders", "kafka", "all"], t ∈ ["orders"]) ∨
          "*" ∈ (["orders"] : List String)))) ∧
    (broadcast sampleClients (some ["orders", "kafka", "all"])).1 =
      [⟨"c1", true, ["orders"]⟩, ⟨"c2", true, ["*"]⟩] :=
  ⟨(broadcast_matching sampleClients ["orders", "kafka", "all"] (by decide)
      ⟨"c1", true, ["orders"]⟩ (by decide)).1, by decide⟩

/-- C10.  With an empty topic list (or a non-array `topics` value) no
filter is applied: every client with an open socket receives the message,
its subscription topics — even an empty set without the wildcard —
notwithstanding. -/
theorem broadcast_unfiltered (clients : List Client) (tf : Option (List String))
    (h : tf = none ∨ tf = some []) (c : Client) (hc : c ∈ clients) :
    c ∈ (broadcast clients tf).1 ↔ c.isOpen = true := by
  have hf : hasTopicFilter tf = false := by
    rcases h with rfl | rfl <;> rfl
  rw [broadcast, List.mem_filter]
  simp [hc, clientReceives, hf]

/-- C10 witness: with the empty topic list, the subscription-less open
client `c4` receives the broadcast. -/
theorem broadcast_unfiltered_witness :
    ((⟨"c4", true, []⟩ : Client) ∈ (broadcast sampleClients (some [])).1 ↔
      (true = true)) ∧
    (⟨"c4", true, []⟩ : Client) ∈ (broadcast sampleClients (some [])).1 :=
  ⟨broadcast_unfiltered sampleClients (some []) (Or.inr rfl)
      ⟨"c4", true, []⟩ (by decide), by decide⟩

/-- C8.  Subscription registration is idempotent: a second
`createConsumer` call for the same source returns the very handle of the
first call and leaves the registry unchanged — no second live consumer is
created for that source. -/
theorem createConsumer_idempotent (consumers : List (String × Nat))
    (source : String) (f1 f2 : Nat) :
    (createConsumer (createConsumer consumers source f1).1 source f2).2 =
      (createConsumer consumers source f1).2 ∧
    (createConsumer (createConsumer consumers source f1).1 source f2).1 =
      (createConsumer consumers source f1).1 := by
  cases h : consumers.find? (fun p => p.1 == source) with
  | some p => simp [createConsumer, h]
  | none => simp [createConsumer, h, List.find?_cons]

/-- C6.  With validation enabled, an invalid payload and
`options.requireValidation` set, `produceMessage` throws the validation
error before any broker I/O: the config-level publish is never called,
and neither is the broadcast. -/
theorem produceMessage_validation_gate
    (validator : String → JValue → ValidationResult) (topic : String)
    (message : JValue) (opts : ProduceOptions) (genTx : String)
    (hv : (validator (opts.messageType.getD "default") message).valid = false)
    (hreq : opts.requireValidation = true) :
    (produceMessage true validator topic message opts genTx).publishedTo = none ∧
    (produceMessage true validator topic message opts genTx).broadcastCalled
      = false ∧
    (produceMessage true validator topic message opts genTx).outcome =
      .error ("Message validation failed: " ++
        ((validator (opts.messageType.getD "default") message).error.getD "")) := by
  refine ⟨?_, ?_, ?_⟩ <;> simp [produceMessage, hv, hreq]

/-- C6 witness: a schema validator rejecting a payload without `orderId`,
under `requireValidation: true`, yields no broker publish. -/
theorem produceMessage_validation_gate_witness :
    ((fun (_ : String) (_ : JValue) =>
        (⟨false, some "Missing required property: orderId"⟩ : ValidationResult))
          "order" (.jobj [("items", .jobj [])])).valid = false ∧
    (produceMessage true
      (fun _ _ => ⟨false, some "Missing required property: orderId"⟩)
      "orders" (.jobj [("items", .jobj [])])
      ⟨none, some "order", true, true⟩ "tx-1").publishedTo = none :=
  ⟨rfl, (produceMessage_validation_gate
      (fun _ _ => ⟨false, some "Missing required property: orderId"⟩)
      "orders" (.jobj [("items", .jobj [])])
      ⟨none, some "order", true, true⟩ "tx-1" rfl rfl).1⟩
